import Mathlib

/-! Verification development for the brewctl live status channel.

The embedded code is the frontend hook `useBrewPolling`
(src/unnamed/part_003, the WebSocket variant that maintains the history
buffers and derived error state; the SSE variant `useBrewStatus` in
src/unnamed/part_001 has an identical message handler) together with the
connection/reconnection logic of
src/frontend/src/components/brew/useBrewPolling.ts (lines 16-96, identical
in part_003 lines 22-142).

Two state machines are embedded:
* the message layer: the `ws.onmessage` handler acting on the refs
  `flowRateHistoryRef` / `weightHistoryRef` and the state cells
  `brewInProgress` / `brewError`;
* the connection layer: `connect` / `disconnect` / `startPolling` /
  `fetchBrewInProgress`, the `onopen` / `onclose` handlers, and the
  reconnect timer, acting on `wsRef` / `reconnectTimeoutRef` /
  `reconnectAttempts`.

JavaScript arrays are modelled with an explicit allocation identity
(`JsArray.aid`) so that statements about "copies, not references" are
expressible; every array-producing expression of the source (an array
literal, a spread `[...xs]`, or `slice`) allocates a fresh identity.
-/

set_option maxRecDepth 100000

namespace Brewctl

/-- Source constant `RECONNECT_DELAY_MS` (part_003 line 6). -/
def RECONNECT_DELAY_MS : Nat := 1000

/-- Source constant `MAX_RECONNECT_DELAY_MS` (part_003 line 7). -/
def MAX_RECONNECT_DELAY_MS : Nat := 30000

/-- Source constant `MAX_HISTORY_POINTS` (part_003 line 8). -/
def MAX_HISTORY_POINTS : Nat := 128

mutual

/-- Model of a JavaScript value produced by `JSON.parse`: null, booleans,
numbers (idealised as exact rationals), strings, arrays and objects. -/
inductive Json where
  | null : Json
  | bool (b : Bool) : Json
  | num (q : Rat) : Json
  | str (s : String) : Json
  | arr (xs : JsonList) : Json
  | obj (fields : JsonFields) : Json
  deriving DecidableEq

/-- Element list of a JSON array. -/
inductive JsonList where
  | nil : JsonList
  | cons (hd : Json) (tl : JsonList) : JsonList
  deriving DecidableEq

/-- Field list of a JSON object. `JSON.parse` deduplicates keys (the last
occurrence wins), so a parsed object is modelled as an association list
with distinct keys looked up by first match. -/
inductive JsonFields where
  | nil : JsonFields
  | cons (key : String) (value : Json) (tl : JsonFields) : JsonFields
  deriving DecidableEq

end

/-- First-match lookup in a JSON object's field list. -/
def lookupField : JsonFields → String → Option Json
  | .nil, _ => none
  | .cons k v tl, key => if k = key then some v else lookupField tl key

/-- Model of JavaScript property access `data.k`: `some` the field value
when `data` is an object carrying the field, and `none` (JS `undefined`)
otherwise.  Access on JS `null` throws a TypeError; that case is handled
at the single place the handler performs its first access (`onmessageBody`). -/
def jsGetField : Json → String → Option Json
  | .obj fields, k => lookupField fields k
  | _, _ => none

/-- JavaScript truthiness of a (defined) value: null, `false`, `0` and
the empty string are falsy, everything else is truthy. -/
def jsTruthy : Json → Bool
  | .null => false
  | .bool b => b
  | .num q => decide (q ≠ 0)
  | .str s => decide (s ≠ "")
  | .arr _ => true
  | .obj _ => true

/-- JavaScript `a || b` where `a` is a possibly-undefined value
(`none` models `undefined`). -/
def jsOr (a : Option Json) (b : Json) : Json :=
  match a with
  | some v => if jsTruthy v then v else b
  | none => b

/-- Result of the platform `parseFloat`: a number or NaN.  Numbers are
idealised as exact rationals; the parsed values are only stored by the
channel, never computed with, so the idealisation is inessential. -/
inductive JsNum where
  | nan : JsNum
  | val (q : Rat) : JsNum
  deriving DecidableEq

/-- Greedily consume leading decimal digits: accumulated value, number of
digits consumed, and the rest of the characters. -/
def takeDigits : Nat → Nat → List Char → Nat × Nat × List Char
  | acc, n, [] => (acc, n, [])
  | acc, n, c :: cs =>
    if c.isDigit then takeDigits (acc * 10 + (c.toNat - 48)) (n + 1) cs
    else (acc, n, c :: cs)

/-- Model of the platform `parseFloat` on a string, restricted to plain
decimal literals (optional sign, digits, optional fraction; trailing junk
ignored; exponents and leading whitespace are not modelled — no claim
depends on them). Returns NaN when no digit is consumed. -/
def parseFloatJS (s : String) : JsNum :=
  let cs := s.toList
  let sgncs : Rat × List Char :=
    match cs with
    | '-' :: r => (-1, r)
    | '+' :: r => (1, r)
    | _ => (1, cs)
  let ip := takeDigits 0 0 sgncs.2
  match ip.2.2 with
  | '.' :: r =>
    let fp := takeDigits 0 0 r
    if ip.2.1 = 0 ∧ fp.2.1 = 0 then JsNum.nan
    else JsNum.val (sgncs.1 * ((ip.1 : Rat) + (fp.1 : Rat) / (10 : Rat) ^ fp.2.1))
  | _ => if ip.2.1 = 0 then JsNum.nan else JsNum.val (sgncs.1 * (ip.1 : Rat))

/-- Model of `parseFloat(v)` on a JSON value: the argument is coerced to a
string first; for the string and number cases (the only ones the typed
wire contract produces) the coercion is exact, other shapes are
approximated as NaN. -/
def parseFloatOf : Json → JsNum
  | .str s => parseFloatJS s
  | .num q => JsNum.val q
  | _ => JsNum.nan

/-- Source type `DataPoint` (types.ts): one history sample.  `none`
models the JS `null` stored in the field. -/
structure DataPoint where
  timestamp : Nat
  flowRate : Option JsNum
  weight : Option JsNum
  deriving DecidableEq

/-- A JavaScript array of history samples together with its allocation
identity, so that distinct array objects with equal contents are
distinguishable (reference vs copy). -/
structure JsArray where
  aid : Nat
  elems : List DataPoint
  deriving DecidableEq

/-- Source type `BrewError` (types.ts): the derived error state.  The
`error` field holds `data.error_message || "An error occurred"` (a JSON
value at runtime, a string on the typed wire contract); `timestamp`
models `new Date().toISOString()` as the instant the handler ran. -/
structure BrewError where
  error : Json
  timestamp : Nat
  deriving DecidableEq

/-- The value passed to `setBrewInProgress(data)`: the parsed payload,
plus the `flow_rate_history` / `weight_history` array fields the handler
assigns onto it in the active branch (absent otherwise). -/
structure PublishedSnapshot where
  raw : Json
  flow_rate_history : Option JsArray
  weight_history : Option JsArray
  deriving DecidableEq

/-- State owned by the message layer of `useBrewPolling`: the two state
cells `brewInProgress` / `brewError` and the two refs
`flowRateHistoryRef` / `weightHistoryRef`; `nextAid` is the allocation
counter for fresh array identities. -/
structure MsgState where
  brewInProgress : Option PublishedSnapshot
  brewError : Option BrewError
  flowRateHistory : JsArray
  weightHistory : JsArray
  nextAid : Nat
  deriving DecidableEq

/-- Initial message-layer state: both cells null, both history refs
freshly allocated empty arrays (part_003 lines 11-20). -/
def initMsgState : MsgState :=
  { brewInProgress := none, brewError := none,
    flowRateHistory := ⟨0, []⟩, weightHistory := ⟨1, []⟩, nextAid := 2 }

/-- Model of JavaScript `xs.slice(-n)`: the suffix of the last `n`
elements (the whole list when it is shorter than `n`). -/
def jsSliceLast {α : Type} (n : Nat) (xs : List α) : List α :=
  xs.drop (xs.length - n)

/-- Source predicate `isActive` (part_003 line 42):
`data.brew_state === "brewing" || data.brew_state === "paused"`. -/
def isActive (data : Json) : Bool :=
  decide (jsGetField data "brew_state" = some (Json.str "brewing")) ||
  decide (jsGetField data "brew_state" = some (Json.str "paused"))

/-- Source condition of the clear branch (part_003 line 62):
`data.brew_state === "completed" || === "idle" || === "error"`. -/
def isEnded (data : Json) : Bool :=
  decide (jsGetField data "brew_state" = some (Json.str "completed")) ||
  decide (jsGetField data "brew_state" = some (Json.str "idle")) ||
  decide (jsGetField data "brew_state" = some (Json.str "error"))

/-- Source expression (part_003 line 46):
`data.current_flow_rate ? parseFloat(data.current_flow_rate) : null`. -/
def parsedFlowRate (data : Json) : Option JsNum :=
  match jsGetField data "current_flow_rate" with
  | some v => if jsTruthy v then some (parseFloatOf v) else none
  | none => none

/-- Source expression (part_003 line 47):
`data.current_weight ? parseFloat(data.current_weight) : null`. -/
def parsedWeight (data : Json) : Option JsNum :=
  match jsGetField data "current_weight" with
  | some v => if jsTruthy v then some (parseFloatOf v) else none
  | none => none

/-- Source `newFlowPoint` (part_003 line 50):
`{ timestamp, flowRate, weight: null }`. -/
def newFlowPoint (now : Nat) (data : Json) : DataPoint :=
  ⟨now, parsedFlowRate data, none⟩

/-- Source `newWeightPoint` (part_003 line 51):
`{ timestamp, flowRate: null, weight }`. -/
def newWeightPoint (now : Nat) (data : Json) : DataPoint :=
  ⟨now, none, parsedWeight data⟩

/-- Source lines 71-79: `setBrewError({...})` when
`data.brew_state === "error"`, `setBrewError(null)` otherwise. -/
def deriveBrewError (now : Nat) (data : Json) : Option BrewError :=
  if jsGetField data "brew_state" = some (Json.str "error") then
    some { error := jsOr (jsGetField data "error_message") (Json.str "An error occurred"),
           timestamp := now }
  else none

/-- Body of `ws.onmessage` after the payload has been parsed
(part_003 lines 41-79), acting on a state whose `nextAid` is `n`.
Allocation identities follow evaluation order: in the active branch the
spread `[...flowRateHistoryRef.current, newFlowPoint]` allocates `n`, its
`slice` allocates `n+1` (stored in the flow ref), the weight spread and
`slice` allocate `n+2` and `n+3`, and the copies
`[...flowRateHistoryRef.current]` / `[...weightHistoryRef.current]`
assigned onto `data` allocate `n+4` and `n+5`; in the ended branch the two
`[]` literals allocate `n` and `n+1`. -/
def processData (now : Nat) (data : Json) (st : MsgState) : MsgState :=
  if isActive data then
    let fp := newFlowPoint now data
    let wp := newWeightPoint now data
    let n := st.nextAid
    let newFlowElems := jsSliceLast MAX_HISTORY_POINTS (st.flowRateHistory.elems ++ [fp])
    let newWeightElems := jsSliceLast MAX_HISTORY_POINTS (st.weightHistory.elems ++ [wp])
    { brewInProgress := some { raw := data,
                               flow_rate_history := some ⟨n + 4, newFlowElems⟩,
                               weight_history := some ⟨n + 5, newWeightElems⟩ },
      brewError := deriveBrewError now data,
      flowRateHistory := ⟨n + 1, newFlowElems⟩,
      weightHistory := ⟨n + 3, newWeightElems⟩,
      nextAid := n + 6 }
  else if isEnded data then
    { brewInProgress := some { raw := data, flow_rate_history := none, weight_history := none },
      brewError := deriveBrewError now data,
      flowRateHistory := ⟨st.nextAid, []⟩,
      weightHistory := ⟨st.nextAid + 1, []⟩,
      nextAid := st.nextAid + 2 }
  else
    { st with
      brewInProgress := some { raw := data, flow_rate_history := none, weight_history := none },
      brewError := deriveBrewError now data }

/-- Throwing part of `ws.onmessage` (part_003 lines 38-79).  The payload
is modelled as the outcome of the platform `JSON.parse`: `none` when the
parse throws (non-JSON text), `some v` when it returns `v`.  A payload
that parses to JSON `null` makes the first property access
`data.brew_state` throw a TypeError; both throws land in the handler's
`catch`, which only logs. -/
def onmessageBody (now : Nat) (payload : Option Json) (st : MsgState) :
    Except Unit MsgState :=
  match payload with
  | none => Except.error ()
  | some data =>
    if data = Json.null then Except.error ()
    else Except.ok (processData now data st)

/-- The complete `ws.onmessage` handler: the `try`/`catch` of
part_003 lines 37-83.  On a throw the `catch` logs and leaves every piece
of state untouched. -/
def onmessage (now : Nat) (payload : Option Json) (st : MsgState) : MsgState :=
  match onmessageBody now payload st with
  | Except.ok st' => st'
  | Except.error _ => st

/-- Run the message handler over a sequence of inbound events, each an
arrival instant paired with the payload's decode outcome. -/
def runMsgs (st : MsgState) (msgs : List (Nat × Option Json)) : MsgState :=
  msgs.foldl (fun s m => onmessage m.1 m.2 s) st

/-- Lift a sequence of successfully decoded payloads to inbound events. -/
def decodedMsgs (msgs : List (Nat × Json)) : List (Nat × Option Json) :=
  msgs.map (fun m => (m.1, some m.2))

/-- A minimal active snapshot used as concrete input in witnesses. -/
def activeObj : Json :=
  Json.obj (JsonFields.cons "brew_state" (Json.str "brewing") JsonFields.nil)

/-- A completed snapshot used as concrete input in witnesses. -/
def completedObj : Json :=
  Json.obj (JsonFields.cons "brew_state" (Json.str "completed") JsonFields.nil)

/-- An error snapshot whose `error_message` is the empty string. -/
def errEmptyMsgObj : Json :=
  Json.obj (JsonFields.cons "brew_state" (Json.str "error")
    (JsonFields.cons "error_message" (Json.str "") JsonFields.nil))

/-- An error snapshot with `error_message = "pump failure"`. -/
def errPumpObj : Json :=
  Json.obj (JsonFields.cons "brew_state" (Json.str "error")
    (JsonFields.cons "error_message" (Json.str "pump failure") JsonFields.nil))

/-! Elementary lemmas about the handler and `slice(-n)` -/

theorem jsSliceLast_length_le {α : Type} (n : Nat) (xs : List α) :
    (jsSliceLast n xs).length ≤ n := by
  unfold jsSliceLast
  rw [List.length_drop]
  omega

theorem jsSliceLast_eq_self {α : Type} (n : Nat) (xs : List α) (h : xs.length ≤ n) :
    jsSliceLast n xs = xs := by
  unfold jsSliceLast
  have hz : xs.length - n = 0 := by omega
  rw [hz, List.drop_zero]

theorem jsSliceLast_append_large {α : Type} (n : Nat) (xs ys : List α)
    (h : n ≤ ys.length) : jsSliceLast n (xs ++ ys) = jsSliceLast n ys := by
  unfold jsSliceLast
  rw [List.length_append, List.drop_append_eq_append_drop,
      List.drop_eq_nil_of_le (by omega), List.nil_append]
  congr 1
  omega

theorem jsSliceLast_slice_append {α : Type} (n : Nat) (xs ys : List α) :
    jsSliceLast n (jsSliceLast n xs ++ ys) = jsSliceLast n (xs ++ ys) := by
  by_cases hx : xs.length ≤ n
  · rw [jsSliceLast_eq_self n xs hx]
  · push_neg at hx
    by_cases hy : n ≤ ys.length
    · rw [jsSliceLast_append_large n _ ys hy, jsSliceLast_append_large n xs ys hy]
    · push_neg at hy
      show (jsSliceLast n xs ++ ys).drop ((jsSliceLast n xs ++ ys).length - n)
            = (xs ++ ys).drop ((xs ++ ys).length - n)
      have hA : (jsSliceLast n xs).length = n := by
        unfold jsSliceLast; rw [List.length_drop]; omega
      show (xs.drop (xs.length - n) ++ ys).drop ((jsSliceLast n xs ++ ys).length - n)
            = (xs ++ ys).drop ((xs ++ ys).length - n)
      rw [List.length_append, List.length_append, hA]
      rw [List.drop_append_eq_append_drop, List.drop_append_eq_append_drop, List.drop_drop]
      have hA' : (List.drop (xs.length - n) xs).length = n := hA
      rw [hA']
      congr 1
      · congr 1
        omega
      · congr 1
        omega

/-- A payload for which history is tracked is in particular not JSON null
(null has no `brew_state` field). -/
theorem isActive_ne_null {data : Json} (h : isActive data = true) : data ≠ Json.null := by
  intro he
  subst he
  simp [isActive, jsGetField] at h

/-- A payload taking the clear branch is not JSON null. -/
theorem isEnded_ne_null {data : Json} (h : isEnded data = true) : data ≠ Json.null := by
  intro he
  subst he
  simp [isEnded, jsGetField] at h

/-- An active payload does not also satisfy the clear-branch test. -/
theorem isEnded_of_ne (data : Json) (h : isEnded data = true) : isActive data = false := by
  simp only [isEnded, Bool.or_eq_true, decide_eq_true_eq] at h
  simp only [isActive, Bool.or_eq_true, decide_eq_true_eq]
  rcases h with (h | h) | h <;> rw [h] <;> simp

/-- On a successfully decoded non-null payload the handler runs its body. -/
theorem onmessage_decoded (now : Nat) (data : Json) (st : MsgState)
    (h : data ≠ Json.null) :
    onmessage now (some data) st = processData now data st := by
  simp [onmessage, onmessageBody, h]

/-- Every successful branch of the body stores `deriveBrewError` and
publishes the payload it decoded. -/
theorem processData_publishes (now : Nat) (data : Json) (st : MsgState) :
    (processData now data st).brewError = deriveBrewError now data ∧
    Option.map PublishedSnapshot.raw (processData now data st).brewInProgress = some data := by
  unfold processData
  split
  · exact ⟨rfl, rfl⟩
  · split
    · exact ⟨rfl, rfl⟩
    · exact ⟨rfl, rfl⟩

/-! Claim C4 -/

/-- Claim C4: for every successfully decoded snapshot whose lifecycle
state is completed, idle, or error, processing the message leaves both
history buffers empty immediately afterwards, regardless of their prior
contents. -/
theorem c4_ended_clears_history (now : Nat) (data : Json) (st : MsgState)
    (h : isEnded data = true) :
    (onmessage now (some data) st).flowRateHistory.elems = [] ∧
    (onmessage now (some data) st).weightHistory.elems = [] := by
  rw [onmessage_decoded now data st (isEnded_ne_null h)]
  unfold processData
  rw [if_neg (by simp [isEnded_of_ne data h]), if_pos h]
  exact ⟨rfl, rfl⟩

/-- Witness for C4: a completed snapshot empties concrete non-empty
buffers. -/
theorem c4_ended_clears_history_witness :
    (onmessage 9 (some completedObj)
      { brewInProgress := none, brewError := none,
        flowRateHistory := ⟨0, [⟨1, none, none⟩]⟩,
        weightHistory := ⟨1, [⟨1, none, none⟩]⟩, nextAid := 2 }).flowRateHistory.elems = [] ∧
    (onmessage 9 (some completedObj)
      { brewInProgress := none, brewError := none,
        flowRateHistory := ⟨0, [⟨1, none, none⟩]⟩,
        weightHistory := ⟨1, [⟨1, none, none⟩]⟩, nextAid := 2 }).weightHistory.elems = [] :=
  c4_ended_clears_history 9 completedObj _ (by decide)

/-! Claim C6 -/

/-- Claim C6: a wire message whose payload fails to decode is discarded:
the body signals the decode failure (the thrown exception), the `catch`
swallows it, and the state — held snapshot, error state, both history
buffers — is left completely unchanged. -/
theorem c6_decode_failure_no_change (now : Nat) (st : MsgState) :
    onmessageBody now none st = Except.error () ∧
    onmessage now none st = st ∧
    (onmessage now none st).brewInProgress = st.brewInProgress ∧
    (onmessage now none st).brewError = st.brewError ∧
    (onmessage now none st).flowRateHistory = st.flowRateHistory ∧
    (onmessage now none st).weightHistory = st.weightHistory :=
  ⟨rfl, rfl, rfl, rfl, rfl, rfl⟩

/-! Claim C7 -/

/-- Counterexample to C7 as stated: a snapshot in the error lifecycle
state whose `error_message` is present but empty yields the generic
fallback text, not the (present) empty message. -/
theorem c7_counterexample :
    jsGetField errEmptyMsgObj "error_message" = some (Json.str "") ∧
    (onmessage 7 (some errEmptyMsgObj) initMsgState).brewError =
      some { error := Json.str "An error occurred", timestamp := 7 } ∧
    Json.str "An error occurred" ≠ Json.str "" := by
  refine ⟨by decide, by decide, by decide⟩

/-- Claim C7 as amended: on an error snapshot the derived error state is
`{ message := error_message when present and truthy (non-empty), the
generic fallback otherwise; timestamp := now }`; on any non-error
snapshot the derived error state is cleared to absent. -/
theorem c7_error_state_derivation (now : Nat) (data : Json) (st : MsgState)
    (h : data ≠ Json.null) :
    (jsGetField data "brew_state" = some (Json.str "error") →
       (onmessage now (some data) st).brewError =
         some { error := jsOr (jsGetField data "error_message") (Json.str "An error occurred"),
                timestamp := now } ∧
       (∀ v, jsGetField data "error_message" = some v → jsTruthy v = true →
          (onmessage now (some data) st).brewError = some { error := v, timestamp := now }) ∧
       (jsGetField data "error_message" = none →
          (onmessage now (some data) st).brewError =
            some { error := Json.str "An error occurred", timestamp := now })) ∧
    (jsGetField data "brew_state" ≠ some (Json.str "error") →
       (onmessage now (some data) st).brewError = none) := by
  rw [onmessage_decoded now data st h]
  have hbe := (processData_publishes now data st).1
  constructor
  · intro hbs
    refine ⟨?_, ?_, ?_⟩
    · rw [hbe]
      unfold deriveBrewError
      rw [if_pos hbs]
    · intro v hv htr
      rw [hbe]
      unfold deriveBrewError
      rw [if_pos hbs]
      simp [jsOr, hv, htr]
    · intro hv
      rw [hbe]
      unfold deriveBrewError
      rw [if_pos hbs]
      simp [jsOr, hv]
  · intro hbs
    rw [hbe]
    unfold deriveBrewError
    rw [if_neg hbs]

/-- Witness for the amended C7: `error_message = "pump failure"` yields
that message with the handler's instant, and a subsequent brewing
snapshot clears the error state to absent. -/
theorem c7_error_state_derivation_witness :
    (onmessage 3 (some errPumpObj) initMsgState).brewError =
      some { error := Json.str "pump failure", timestamp := 3 } ∧
    (onmessage 4 (some activeObj) (onmessage 3 (some errPumpObj) initMsgState)).brewError
      = none :=
  ⟨((c7_error_state_derivation 3 errPumpObj initMsgState (by decide)).1 (by decide)).2.1
      (Json.str "pump failure") (by decide) (by decide),
   (c7_error_state_derivation 4 activeObj
      (onmessage 3 (some errPumpObj) initMsgState) (by decide)).2 (by decide)⟩

/-! Claim C9 -/

/-- Counterexample to C9 as stated: a payload that parses as a bare
number — not the snapshot shape — is not rejected: it is published as the
current snapshot. -/
theorem c9_counterexample :
    (onmessage 0 (some (Json.num 42)) initMsgState).brewInProgress =
      some { raw := Json.num 42, flow_rate_history := none, weight_history := none } ∧
    (onmessage 0 (some (Json.num 42)) initMsgState).brewInProgress ≠ none := by
  refine ⟨by decide, by decide⟩

/-- Claim C9 as amended: the handler rejects exactly the payloads that
fail to decode as JSON, plus JSON null (whose first property access
throws, caught by the same handler); every other successfully parsed
value — bare numbers, arrays, objects missing required fields, objects
with unknown extra fields — is published as the current snapshot. -/
theorem c9_lenient_parse (now : Nat) (data : Json) (st : MsgState)
    (h : data ≠ Json.null) :
    Option.map PublishedSnapshot.raw (onmessage now (some data) st).brewInProgress
      = some data ∧
    onmessage now none st = st ∧
    onmessage now (some Json.null) st = st := by
  rw [onmessage_decoded now data st h]
  exact ⟨(processData_publishes now data st).2, rfl, rfl⟩

/-- Witness for the amended C9 at a bare-number payload. -/
theorem c9_lenient_parse_witness :
    Option.map PublishedSnapshot.raw
        (onmessage 0 (some (Json.num 42)) initMsgState).brewInProgress
      = some (Json.num 42) ∧
    onmessage 0 none initMsgState = initMsgState ∧
    onmessage 0 (some Json.null) initMsgState = initMsgState :=
  c9_lenient_parse 0 (Json.num 42) initMsgState (by decide)

/-! Claim C2 -/

/-- One processed message keeps both buffers within the 128-sample
capacity, whatever the payload was. -/
theorem onmessage_length_le (now : Nat) (p : Option Json) (st : MsgState)
    (hf : st.flowRateHistory.elems.length ≤ 128)
    (hw : st.weightHistory.elems.length ≤ 128) :
    (onmessage now p st).flowRateHistory.elems.length ≤ 128 ∧
    (onmessage now p st).weightHistory.elems.length ≤ 128 := by
  cases p with
  | none => exact ⟨hf, hw⟩
  | some data =>
    by_cases hn : data = Json.null
    · subst hn
      have he : onmessage now (some Json.null) st = st := by simp [onmessage, onmessageBody]
      rw [he]
      exact ⟨hf, hw⟩
    · rw [onmessage_decoded now data st hn]
      unfold processData
      split
      · exact ⟨jsSliceLast_length_le MAX_HISTORY_POINTS _, jsSliceLast_length_le MAX_HISTORY_POINTS _⟩
      · split
        · exact ⟨by simp, by simp⟩
        · exact ⟨hf, hw⟩

/-- The capacity bound is an invariant of arbitrary message runs. -/
theorem runMsgs_length_le (msgs : List (Nat × Option Json)) : ∀ st : MsgState,
    st.flowRateHistory.elems.length ≤ 128 →
    st.weightHistory.elems.length ≤ 128 →
    (runMsgs st msgs).flowRateHistory.elems.length ≤ 128 ∧
    (runMsgs st msgs).weightHistory.elems.length ≤ 128 := by
  induction msgs with
  | nil => intro st hf hw; exact ⟨hf, hw⟩
  | cons m ms ih =>
    intro st hf hw
    have hstep := onmessage_length_le m.1 m.2 st hf hw
    exact ih (onmessage m.1 m.2 st) hstep.1 hstep.2

/-- An active message appends one sample to each buffer and keeps the
last 128 (part_003 lines 44-57). -/
theorem processData_active (now : Nat) (data : Json) (st : MsgState)
    (h : isActive data = true) :
    (processData now data st).flowRateHistory.elems
      = jsSliceLast MAX_HISTORY_POINTS (st.flowRateHistory.elems ++ [newFlowPoint now data]) ∧
    (processData now data st).weightHistory.elems
      = jsSliceLast MAX_HISTORY_POINTS (st.weightHistory.elems ++ [newWeightPoint now data]) := by
  unfold processData
  rw [if_pos h]
  exact ⟨rfl, rfl⟩

/-- Running a block of active messages from buffers within capacity
leaves each buffer holding the last 128 of the old samples followed by
the new ones, in order. -/
theorem runMsgs_active (msgs : List (Nat × Json)) : ∀ st : MsgState,
    (∀ m ∈ msgs, isActive m.2 = true) →
    st.flowRateHistory.elems.length ≤ 128 →
    st.weightHistory.elems.length ≤ 128 →
    (runMsgs st (decodedMsgs msgs)).flowRateHistory.elems
      = jsSliceLast MAX_HISTORY_POINTS
          (st.flowRateHistory.elems ++ msgs.map (fun m => newFlowPoint m.1 m.2)) ∧
    (runMsgs st (decodedMsgs msgs)).weightHistory.elems
      = jsSliceLast MAX_HISTORY_POINTS
          (st.weightHistory.elems ++ msgs.map (fun m => newWeightPoint m.1 m.2)) := by
  induction msgs with
  | nil =>
    intro st h hf hw
    constructor
    · rw [List.map_nil, List.append_nil, jsSliceLast_eq_self MAX_HISTORY_POINTS _ hf]
      rfl
    · rw [List.map_nil, List.append_nil, jsSliceLast_eq_self MAX_HISTORY_POINTS _ hw]
      rfl
  | cons m ms ih =>
    intro st h hf hw
    have hm : isActive m.2 = true := h m (List.mem_cons_self m ms)
    have hms : ∀ x ∈ ms, isActive x.2 = true := fun x hx => h x (List.mem_cons_of_mem m hx)
    have hstep := processData_active m.1 m.2 st hm
    have hrun : runMsgs st (decodedMsgs (m :: ms))
        = runMsgs (processData m.1 m.2 st) (decodedMsgs ms) := by
      show runMsgs (onmessage m.1 (some m.2) st) (decodedMsgs ms)
          = runMsgs (processData m.1 m.2 st) (decodedMsgs ms)
      rw [onmessage_decoded m.1 m.2 st (isActive_ne_null hm)]
    have hb1 : (processData m.1 m.2 st).flowRateHistory.elems.length ≤ 128 := by
      rw [hstep.1]
      exact jsSliceLast_length_le MAX_HISTORY_POINTS _
    have hb2 : (processData m.1 m.2 st).weightHistory.elems.length ≤ 128 := by
      rw [hstep.2]
      exact jsSliceLast_length_le MAX_HISTORY_POINTS _
    obtain ⟨e1, e2⟩ := ih (processData m.1 m.2 st) hms hb1 hb2
    rw [hrun]
    constructor
    · rw [e1, hstep.1, jsSliceLast_slice_append]
      simp only [List.map_cons, List.append_assoc, List.singleton_append]
    · rw [e2, hstep.2, jsSliceLast_slice_append]
      simp only [List.map_cons, List.append_assoc, List.singleton_append]

/-- Claim C2: over any sequence of successfully decoded active snapshots
(from buffers within capacity), neither history buffer ever exceeds 128
samples, and once 129 or more consecutive active messages have been
processed each buffer holds exactly the samples of the most recent 128
messages in insertion order — the oldest samples having been evicted
first. -/
theorem c2_history_ring_buffer (st : MsgState) (msgs : List (Nat × Json))
    (hact : ∀ m ∈ msgs, isActive m.2 = true)
    (hf : st.flowRateHistory.elems.length ≤ 128)
    (hw : st.weightHistory.elems.length ≤ 128) :
    (∀ k,
       (runMsgs st (decodedMsgs (msgs.take k))).flowRateHistory.elems.length ≤ 128 ∧
       (runMsgs st (decodedMsgs (msgs.take k))).weightHistory.elems.length ≤ 128) ∧
    (129 ≤ msgs.length →
       (runMsgs st (decodedMsgs msgs)).flowRateHistory.elems
          = (msgs.map (fun m => newFlowPoint m.1 m.2)).drop (msgs.length - 128) ∧
       (runMsgs st (decodedMsgs msgs)).weightHistory.elems
          = (msgs.map (fun m => newWeightPoint m.1 m.2)).drop (msgs.length - 128) ∧
       (runMsgs st (decodedMsgs msgs)).flowRateHistory.elems.length = 128 ∧
       (runMsgs st (decodedMsgs msgs)).weightHistory.elems.length = 128) := by
  constructor
  · intro k
    exact runMsgs_length_le (decodedMsgs (msgs.take k)) st hf hw
  · intro hlen
    obtain ⟨e1, e2⟩ := runMsgs_active msgs st hact hf hw
    have hlarge1 : MAX_HISTORY_POINTS ≤ (msgs.map (fun m => newFlowPoint m.1 m.2)).length := by
      rw [List.length_map]
      simp only [MAX_HISTORY_POINTS]
      omega
    have hlarge2 : MAX_HISTORY_POINTS ≤ (msgs.map (fun m => newWeightPoint m.1 m.2)).length := by
      rw [List.length_map]
      simp only [MAX_HISTORY_POINTS]
      omega
    have f1 : (runMsgs st (decodedMsgs msgs)).flowRateHistory.elems
        = (msgs.map (fun m => newFlowPoint m.1 m.2)).drop (msgs.length - 128) := by
      rw [e1, jsSliceLast_append_large _ _ _ hlarge1]
      show (msgs.map (fun m => newFlowPoint m.1 m.2)).drop
            ((msgs.map (fun m => newFlowPoint m.1 m.2)).length - MAX_HISTORY_POINTS) = _
      rw [List.length_map]
      rfl
    have f2 : (runMsgs st (decodedMsgs msgs)).weightHistory.elems
        = (msgs.map (fun m => newWeightPoint m.1 m.2)).drop (msgs.length - 128) := by
      rw [e2, jsSliceLast_append_large _ _ _ hlarge2]
      show (msgs.map (fun m => newWeightPoint m.1 m.2)).drop
            ((msgs.map (fun m => newWeightPoint m.1 m.2)).length - MAX_HISTORY_POINTS) = _
      rw [List.length_map]
      rfl
    refine ⟨f1, f2, ?_, ?_⟩
    · rw [f1, List.length_drop, List.length_map]
      omega
    · rw [f2, List.length_drop, List.length_map]
      omega

/-- Concrete run of 129 active snapshots used as the witness input. -/
def W129 : List (Nat × Json) := (List.range 129).map (fun i => (i, activeObj))

/-- Witness for C2 at a concrete run of 129 active messages. -/
theorem c2_history_ring_buffer_witness :
    (runMsgs initMsgState (decodedMsgs W129)).flowRateHistory.elems
        = (W129.map (fun m => newFlowPoint m.1 m.2)).drop (W129.length - 128) ∧
    (runMsgs initMsgState (decodedMsgs W129)).flowRateHistory.elems.length = 128 ∧
    (runMsgs initMsgState (decodedMsgs (W129.take 5))).flowRateHistory.elems.length ≤ 128 := by
  have H := c2_history_ring_buffer initMsgState W129 (by decide) (by decide) (by decide)
  exact ⟨(H.2 (by decide)).1, (H.2 (by decide)).2.2.1, (H.1 5).1⟩

/-! Claim C10 -/

/-- The paired-buffer invariant: the two buffers move in lock step (equal
length, pointwise equal timestamps), the flow buffer never stores a
weight and vice versa, and whenever the published snapshot carries
history arrays they are copies — distinct array objects with the same
contents as the internal refs. -/
def PairedInvariant (st : MsgState) : Prop :=
  st.flowRateHistory.elems.length = st.weightHistory.elems.length ∧
  st.flowRateHistory.elems.map DataPoint.timestamp
    = st.weightHistory.elems.map DataPoint.timestamp ∧
  (∀ p ∈ st.flowRateHistory.elems, p.weight = none) ∧
  (∀ p ∈ st.weightHistory.elems, p.flowRate = none) ∧
  (∀ pub, st.brewInProgress = some pub →
     (∀ fa, pub.flow_rate_history = some fa →
        fa.aid ≠ st.flowRateHistory.aid ∧ fa.elems = st.flowRateHistory.elems) ∧
     (∀ wa, pub.weight_history = some wa →
        wa.aid ≠ st.weightHistory.aid ∧ wa.elems = st.weightHistory.elems))

/-- Each sample constructed in the active branch carries the shared tick
instant and a null weight (flow buffer) or null flow rate (weight
buffer). -/
theorem newPoint_fields (now : Nat) (data : Json) :
    (newFlowPoint now data).timestamp = now ∧
    (newWeightPoint now data).timestamp = now ∧
    (newFlowPoint now data).weight = none ∧
    (newWeightPoint now data).flowRate = none :=
  ⟨rfl, rfl, rfl, rfl⟩

/-- One processed message preserves the paired-buffer invariant. -/
theorem onmessage_paired (now : Nat) (p : Option Json) (st : MsgState)
    (h : PairedInvariant st) : PairedInvariant (onmessage now p st) := by
  obtain ⟨hlen, hts, hfw, hwf, hpub⟩ := h
  cases p with
  | none => exact ⟨hlen, hts, hfw, hwf, hpub⟩
  | some data =>
    by_cases hn : data = Json.null
    · subst hn
      have he : onmessage now (some Json.null) st = st := by simp [onmessage, onmessageBody]
      rw [he]
      exact ⟨hlen, hts, hfw, hwf, hpub⟩
    · rw [onmessage_decoded now data st hn]
      unfold processData
      split
      · refine ⟨?_, ?_, ?_, ?_, ?_⟩
        · show (jsSliceLast MAX_HISTORY_POINTS
                  (st.flowRateHistory.elems ++ [newFlowPoint now data])).length
             = (jsSliceLast MAX_HISTORY_POINTS
                  (st.weightHistory.elems ++ [newWeightPoint now data])).length
          unfold jsSliceLast
          simp only [List.length_drop, List.length_append, List.length_singleton, hlen]
        · show (jsSliceLast MAX_HISTORY_POINTS
                  (st.flowRateHistory.elems ++ [newFlowPoint now data])).map DataPoint.timestamp
             = (jsSliceLast MAX_HISTORY_POINTS
                  (st.weightHistory.elems ++ [newWeightPoint now data])).map DataPoint.timestamp
          unfold jsSliceLast
          rw [List.map_drop, List.map_drop, List.map_append, List.map_append]
          simp only [List.map_cons, List.map_nil, List.length_append, List.length_singleton,
            (newPoint_fields now data).1, (newPoint_fields now data).2.1, hts, hlen]
        · intro q hq
          unfold jsSliceLast at hq
          have hq' := List.mem_of_mem_drop hq
          rcases List.mem_append.mp hq' with h1 | h1
          · exact hfw q h1
          · rw [List.mem_singleton.mp h1]
            exact (newPoint_fields now data).2.2.1
        · intro q hq
          unfold jsSliceLast at hq
          have hq' := List.mem_of_mem_drop hq
          rcases List.mem_append.mp hq' with h1 | h1
          · exact hwf q h1
          · rw [List.mem_singleton.mp h1]
            exact (newPoint_fields now data).2.2.2
        · intro pub hp
          have hpe := Option.some.inj hp
          subst hpe
          constructor
          · intro fa hfa
            have hfe := Option.some.inj hfa
            subst hfe
            exact ⟨by simp, rfl⟩
          · intro wa hwa
            have hwe := Option.some.inj hwa
            subst hwe
            exact ⟨by simp, rfl⟩
      · split
        · refine ⟨rfl, rfl, ?_, ?_, ?_⟩
          · intro q hq
            exact absurd hq (List.not_mem_nil q)
          · intro q hq
            exact absurd hq (List.not_mem_nil q)
          · intro pub hp
            have hpe := Option.some.inj hp
            subst hpe
            constructor
            · intro fa hfa
              exact absurd hfa (by simp)
            · intro wa hwa
              exact absurd hwa (by simp)
        · refine ⟨hlen, hts, hfw, hwf, ?_⟩
          intro pub hp
          have hpe := Option.some.inj hp
          subst hpe
          constructor
          · intro fa hfa
            exact absurd hfa (by simp)
          · intro wa hwa
            exact absurd hwa (by simp)

/-- The paired-buffer invariant holds after any run from the initial
state. -/
theorem runMsgs_paired (msgs : List (Nat × Option Json)) : ∀ st : MsgState,
    PairedInvariant st → PairedInvariant (runMsgs st msgs) := by
  induction msgs with
  | nil => intro st h; exact h
  | cons m ms ih =>
    intro st h
    exact ih (onmessage m.1 m.2 st) (onmessage_paired m.1 m.2 st h)

/-- The initial state satisfies the paired-buffer invariant. -/
theorem initMsgState_paired : PairedInvariant initMsgState := by
  refine ⟨rfl, rfl, ?_, ?_, ?_⟩
  · intro q hq
    exact absurd hq (List.not_mem_nil q)
  · intro q hq
    exact absurd hq (List.not_mem_nil q)
  · intro pub hp
    exact Option.noConfusion hp

/-- Claim C10: after every processed message the two history buffers have
equal length, carry pointwise equal timestamps, the flow buffer stores
only null weights and the weight buffer only null flow rates, and any
history arrays attached to the published snapshot are copies of the
internal buffers — equal contents but distinct array objects. -/
theorem c10_paired_buffers (msgs : List (Nat × Option Json)) :
    (runMsgs initMsgState msgs).flowRateHistory.elems.length
      = (runMsgs initMsgState msgs).weightHistory.elems.length ∧
    (runMsgs initMsgState msgs).flowRateHistory.elems.map DataPoint.timestamp
      = (runMsgs initMsgState msgs).weightHistory.elems.map DataPoint.timestamp ∧
    (∀ p ∈ (runMsgs initMsgState msgs).flowRateHistory.elems, p.weight = none) ∧
    (∀ p ∈ (runMsgs initMsgState msgs).weightHistory.elems, p.flowRate = none) ∧
    (∀ pub, (runMsgs initMsgState msgs).brewInProgress = some pub →
       (∀ fa, pub.flow_rate_history = some fa →
          fa.aid ≠ (runMsgs initMsgState msgs).flowRateHistory.aid ∧
          fa.elems = (runMsgs initMsgState msgs).flowRateHistory.elems) ∧
       (∀ wa, pub.weight_history = some wa →
          wa.aid ≠ (runMsgs initMsgState msgs).weightHistory.aid ∧
          wa.elems = (runMsgs initMsgState msgs).weightHistory.elems)) :=
  runMsgs_paired msgs initMsgState initMsgState_paired

/-- Concrete single-message run used as the witness input for C10. -/
def M1 : List (Nat × Option Json) := [(3, some activeObj)]

/-- Witness for C10 at a concrete active message: the published flow
history array is a copy (fresh identity, same contents) of the internal
flow buffer, and the sample stored in the flow buffer has a null
weight. -/
theorem c10_paired_buffers_witness :
    ((⟨6, [⟨3, none, none⟩]⟩ : JsArray).aid
        ≠ (runMsgs initMsgState M1).flowRateHistory.aid ∧
     (⟨6, [⟨3, none, none⟩]⟩ : JsArray).elems
        = (runMsgs initMsgState M1).flowRateHistory.elems) ∧
    (⟨3, none, none⟩ : DataPoint).weight = none :=
  ⟨((c10_paired_buffers M1).2.2.2.2
      ⟨activeObj, some ⟨6, [⟨3, none, none⟩]⟩, some ⟨7, [⟨3, none, none⟩]⟩⟩
      (by decide)).1 ⟨6, [⟨3, none, none⟩]⟩ (by decide),
   (c10_paired_buffers M1).2.2.1 ⟨3, none, none⟩ (by decide)⟩

/-! The connection layer.

The connection-side state of one hook instance: the refs `wsRef`,
`reconnectTimeoutRef` and `reconnectAttempts`, plus environment
bookkeeping needed to say which platform events may occur.  WebSocket
platform semantics modelled here: every created socket delivers its
`close` event exactly once, whether it was closed locally via `close()`,
by the server, or failed to connect (WHATWG WebSocket: the close event
fires once the closing procedure completes, including after a local
`close()`); a socket on which `close()` was called before opening never
delivers `open`; `setTimeout` returns a fresh handle and the callback of
every scheduled reconnect timer is `connect`; `clearTimeout` cancels only
the handle it is given. -/

/-- Source expression (part_003 lines 94-97): the backoff delay computed
from the current `reconnectAttempts` value. -/
def reconnectDelay (attempt : Nat) : Nat :=
  min (RECONNECT_DELAY_MS * 2 ^ attempt) MAX_RECONNECT_DELAY_MS

/-- Events of one run of the connection layer: the two public lifecycle
calls, the ensure-connected call, the platform events of socket `sid`,
and the elapse of scheduled timer `tid`. -/
inductive CEvent where
  | start : CEvent
  | stop : CEvent
  | ensure : CEvent
  | openEvt (sid : Nat) : CEvent
  | closeEvt (sid : Nat) : CEvent
  | timerFire (tid : Nat) : CEvent
  deriving DecidableEq

/-- Connection-layer state.  `nextWs` / `nextTimer` count sockets and
timer handles ever created; `socketsClosed` records sockets on which the
code called `close()`; `socketsOpened` / `socketsDone` record which
sockets have delivered their open / close events; `pendingTimers` holds
the scheduled-but-not-elapsed timer handles (`timerRef` tracks only the
most recently stored one, as in the source); `delayLog` is a ghost log of
every delay the `onclose` handler computed, in order. -/
structure MachineState where
  nextWs : Nat
  nextTimer : Nat
  wsRef : Option Nat
  timerRef : Option Nat
  reconnectAttempts : Nat
  socketsClosed : List Nat
  socketsOpened : List Nat
  socketsDone : List Nat
  pendingTimers : List Nat
  delayLog : List Nat
  deriving DecidableEq

/-- Initial connection-layer state (part_003 lines 14-16): no socket, no
timer, attempt counter zero. -/
def initMachine : MachineState :=
  { nextWs := 0, nextTimer := 0, wsRef := none, timerRef := none,
    reconnectAttempts := 0, socketsClosed := [], socketsOpened := [],
    socketsDone := [], pendingTimers := [], delayLog := [] }

/-- Source `connect` (part_003 lines 22-30): close the existing socket if
any, then create a fresh one and store it in the ref.  The handlers
installed on the new socket are the same shared closures for every
socket; their effects are modelled in `step`. -/
def connect (s : MachineState) : MachineState :=
  let s1 :=
    match s.wsRef with
    | some sid => { s with socketsClosed := sid :: s.socketsClosed, wsRef := none }
    | none => s
  { s1 with wsRef := some s1.nextWs, nextWs := s1.nextWs + 1 }

/-- Readiness test `readyState === WebSocket.OPEN` of socket `sid`: it
has opened, has not yet delivered its close event, and the code has not
called `close()` on it. -/
def isOpenSock (s : MachineState) (sid : Nat) : Bool :=
  s.socketsOpened.contains sid && !(s.socketsDone.contains sid)
    && !(s.socketsClosed.contains sid)

/-- Source `disconnect` (part_003 lines 107-117): clear the tracked
reconnect timer if any, close the tracked socket if any, reset the
attempt counter. -/
def disconnect (s : MachineState) : MachineState :=
  let s1 :=
    match s.timerRef with
    | some tid => { s with pendingTimers := s.pendingTimers.erase tid, timerRef := none }
    | none => s
  let s2 :=
    match s1.wsRef with
    | some sid => { s1 with socketsClosed := sid :: s1.socketsClosed, wsRef := none }
    | none => s1
  { s2 with reconnectAttempts := 0 }

/-- Source `ws.onclose` (part_003 lines 89-104), run when socket `sid`
delivers its close event: null the ref (unconditionally — even when the
ref meanwhile tracks a different socket), compute the delay from the
current attempt counter, increment the counter, schedule `connect` after
the delay and store the new timer handle in the ref (overwriting it; a
previously stored still-pending timer is leaked, not cancelled). -/
def oncloseStep (s : MachineState) (sid : Nat) : MachineState :=
  { s with
    socketsDone := sid :: s.socketsDone,
    wsRef := none,
    reconnectAttempts := s.reconnectAttempts + 1,
    pendingTimers := s.nextTimer :: s.pendingTimers,
    timerRef := some s.nextTimer,
    nextTimer := s.nextTimer + 1,
    delayLog := s.delayLog ++ [reconnectDelay s.reconnectAttempts] }

/-- One transition of the connection layer.  `start` is `startPolling`
(part_003 lines 119-121: it just calls `connect`), `stop` is
`stopPolling`'s `disconnect` (the message-layer clearing it also does is
the other machine's concern), `ensure` is `fetchBrewInProgress`
(part_003 lines 137-142), `openEvt` runs `ws.onopen` (lines 32-35),
`closeEvt` runs `ws.onclose`, and `timerFire` elapses a scheduled timer,
whose callback is `connect` (line 101-103). -/
def step (s : MachineState) : CEvent → MachineState
  | CEvent.start => connect s
  | CEvent.stop => disconnect s
  | CEvent.ensure =>
    match s.wsRef with
    | some sid => if isOpenSock s sid then s else connect s
    | none => connect s
  | CEvent.openEvt sid =>
    { s with socketsOpened := sid :: s.socketsOpened, reconnectAttempts := 0 }
  | CEvent.closeEvt sid => oncloseStep s sid
  | CEvent.timerFire tid =>
    connect { s with pendingTimers := s.pendingTimers.erase tid }

/-- Which events the environment may deliver in a state: lifecycle calls
always; `open` only for a created socket that has not opened, closed, or
been locally closed; `close` once for any created socket; a timer elapse
only for a scheduled, uncancelled handle. -/
def legalEvt (s : MachineState) : CEvent → Bool
  | CEvent.start => true
  | CEvent.stop => true
  | CEvent.ensure => true
  | CEvent.openEvt sid =>
    decide (sid < s.nextWs) && !(s.socketsOpened.contains sid)
      && !(s.socketsDone.contains sid) && !(s.socketsClosed.contains sid)
  | CEvent.closeEvt sid => decide (sid < s.nextWs) && !(s.socketsDone.contains sid)
  | CEvent.timerFire tid => s.pendingTimers.contains tid

/-- A trace is legal from a state when every event is legal where it
occurs. -/
def LegalFrom (s : MachineState) : List CEvent → Bool
  | [] => true
  | e :: tr => legalEvt s e && LegalFrom (step s e) tr

/-- Run the connection layer from a state over a trace. -/
def runFrom (s : MachineState) (tr : List CEvent) : MachineState :=
  tr.foldl step s

/-- Run the connection layer from the initial state. -/
def runMachine (tr : List CEvent) : MachineState :=
  runFrom initMachine tr

/-- Accumulator counting transport closures since the most recent reset
point of the attempt counter. -/
def resetCount (n : Nat) (e : CEvent) : Nat :=
  match e with
  | CEvent.openEvt _ => 0
  | CEvent.stop => 0
  | CEvent.closeEvt _ => n + 1
  | _ => n

/-- Number of transport closures in a trace since the last successful
open or explicit stop (whichever came last). -/
def closuresSinceReset (tr : List CEvent) : Nat :=
  tr.foldl resetCount 0

/-- Number of transport closures in a trace since the last successful
open — the count the claim's backoff exponent refers to. -/
def closuresSinceLastOpen (tr : List CEvent) : Nat :=
  tr.foldl
    (fun n e =>
      match e with
      | CEvent.openEvt _ => 0
      | CEvent.closeEvt _ => n + 1
      | _ => n) 0

theorem runFrom_append (s : MachineState) (tr : List CEvent) (e : CEvent) :
    runFrom s (tr ++ [e]) = step (runFrom s tr) e := by
  unfold runFrom
  rw [List.foldl_append]
  rfl

theorem connect_attempts (s : MachineState) :
    (connect s).reconnectAttempts = s.reconnectAttempts := by
  unfold connect
  cases s.wsRef <;> rfl

/-- Effect of each event on the attempt counter. -/
theorem step_attempts (s : MachineState) (e : CEvent) :
    (step s e).reconnectAttempts = resetCount s.reconnectAttempts e := by
  cases e with
  | start => exact connect_attempts s
  | stop => rfl
  | ensure =>
    show (match s.wsRef with
          | some sid => if isOpenSock s sid then s else connect s
          | none => connect s).reconnectAttempts = s.reconnectAttempts
    cases s.wsRef with
    | none => exact connect_attempts s
    | some sid =>
      show (if isOpenSock s sid then s else connect s).reconnectAttempts
        = s.reconnectAttempts
      split
      · rfl
      · exact connect_attempts _
  | openEvt sid => rfl
  | closeEvt sid => rfl
  | timerFire tid => exact connect_attempts _

/-- The attempt counter of any run equals the closure count since its
last reset point. -/
theorem runFrom_attempts (tr : List CEvent) : ∀ s : MachineState,
    (runFrom s tr).reconnectAttempts = tr.foldl resetCount s.reconnectAttempts := by
  induction tr with
  | nil => intro s; rfl
  | cons e tr ih =>
    intro s
    show (runFrom (step s e) tr).reconnectAttempts = tr.foldl resetCount (resetCount s.reconnectAttempts e)
    rw [ih (step s e), step_attempts s e]

/-! Claim C1 -/

/-- Counterexample to C1 as stated: in the legal run
start, open 0, close 0, stop, start, close 1 the last closure is the
1st consecutive closure since the last successful open (n = 1, so the
claim demands a 2000 ms delay), but the code schedules it after 1000 ms,
because the explicit `stop()` also reset the attempt counter. -/
theorem c1_counterexample :
    LegalFrom initMachine
        ([CEvent.start, CEvent.openEvt 0, CEvent.closeEvt 0, CEvent.stop, CEvent.start]
          ++ [CEvent.closeEvt 1]) = true ∧
    closuresSinceLastOpen
        [CEvent.start, CEvent.openEvt 0, CEvent.closeEvt 0, CEvent.stop, CEvent.start] = 1 ∧
    min (1000 * 2 ^ (1 : Nat)) 30000 = 2000 ∧
    (runMachine
        ([CEvent.start, CEvent.openEvt 0, CEvent.closeEvt 0, CEvent.stop, CEvent.start]
          ++ [CEvent.closeEvt 1])).delayLog = [1000, 1000] ∧
    (1000 : Nat) ≠ 2000 := by
  refine ⟨by decide, by decide, by decide, by decide, by decide⟩

/-- Claim C1 as amended: on the n-th consecutive transport closure since
the last reset of the attempt counter — a successful open or an explicit
`stop()`, whichever came last — the scheduled reconnect delay is
`min(1000·2^n, 30000)` ms (the sequence 1000, 2000, 4000, 8000, 16000,
30000, 30000, …), the counter being incremented only after the delay for
that closure is computed, and any successful open resetting it to 0. -/
theorem c1_backoff_delay (tr : List CEvent) (sid : Nat) :
    (runMachine (tr ++ [CEvent.closeEvt sid])).delayLog
      = (runMachine tr).delayLog ++ [min (1000 * 2 ^ closuresSinceReset tr) 30000] ∧
    (runMachine (tr ++ [CEvent.closeEvt sid])).reconnectAttempts
      = closuresSinceReset tr + 1 ∧
    (∀ sid2, (runMachine (tr ++ [CEvent.openEvt sid2])).reconnectAttempts = 0) ∧
    (List.range 7).map (fun n => min (1000 * 2 ^ n) 30000)
      = [1000, 2000, 4000, 8000, 16000, 30000, 30000] := by
  have hatt : (runMachine tr).reconnectAttempts = closuresSinceReset tr :=
    runFrom_attempts tr initMachine
  refine ⟨?_, ?_, ?_, by decide⟩
  · show (runFrom initMachine (tr ++ [CEvent.closeEvt sid])).delayLog = _
    rw [runFrom_append]
    show (runMachine tr).delayLog
        ++ [reconnectDelay (runMachine tr).reconnectAttempts] = _
    rw [hatt]
    rfl
  · show (runFrom initMachine (tr ++ [CEvent.closeEvt sid])).reconnectAttempts = _
    rw [runFrom_append]
    show (runMachine tr).reconnectAttempts + 1 = _
    rw [hatt]
  · intro sid2
    show (runFrom initMachine (tr ++ [CEvent.openEvt sid2])).reconnectAttempts = 0
    rw [runFrom_append]
    rfl

/-! Claim C3 -/

/-- Claim C3 evaluated on the code: `stop()` does cancel a pending
reconnect timer (after start, open 0, close 0, stop no timer remains and
the cancelled timer may no longer fire), but a stopped channel still
resurrects itself: in the legal run start, open 0, stop, close 0,
timer 0 fires, the close event of the very socket `stop()` closed runs
the still-attached `onclose` handler, which schedules a fresh reconnect
timer, and when it elapses `connect` opens a brand-new transport — after
`stop()` returned, pending callbacks capable of mutating channel state
remained. -/
theorem c3_stop_resurrects :
    LegalFrom initMachine
        [CEvent.start, CEvent.openEvt 0, CEvent.closeEvt 0, CEvent.stop] = true ∧
    (runMachine [CEvent.start, CEvent.openEvt 0, CEvent.closeEvt 0, CEvent.stop]).pendingTimers
      = [] ∧
    legalEvt (runMachine [CEvent.start, CEvent.openEvt 0, CEvent.closeEvt 0, CEvent.stop])
        (CEvent.timerFire 0) = false ∧
    LegalFrom initMachine
        [CEvent.start, CEvent.openEvt 0, CEvent.stop, CEvent.closeEvt 0, CEvent.timerFire 0]
      = true ∧
    (runMachine [CEvent.start, CEvent.openEvt 0, CEvent.stop]).pendingTimers = [] ∧
    (runMachine [CEvent.start, CEvent.openEvt 0, CEvent.stop]).wsRef = none ∧
    (runMachine [CEvent.start, CEvent.openEvt 0, CEvent.stop, CEvent.closeEvt 0]).pendingTimers
      = [0] ∧
    (runMachine
        [CEvent.start, CEvent.openEvt 0, CEvent.stop, CEvent.closeEvt 0, CEvent.timerFire 0]).nextWs
      = 2 ∧
    (runMachine
        [CEvent.start, CEvent.openEvt 0, CEvent.stop, CEvent.closeEvt 0, CEvent.timerFire 0]).wsRef
      = some 1 := by
  refine ⟨by decide, by decide, by decide, by decide, by decide, by decide, by decide,
    by decide, by decide⟩

/-! Claim C5 -/

/-- Counterexample to C5 as stated: calling `start()` while socket 0 is
open is not a no-op — it closes socket 0 and creates a second transport
(socket 1), so the state changes and the number of transports ever
created grows from 1 to 2. -/
theorem c5_counterexample :
    LegalFrom initMachine [CEvent.start, CEvent.openEvt 0, CEvent.start] = true ∧
    isOpenSock (runMachine [CEvent.start, CEvent.openEvt 0]) 0 = true ∧
    (runMachine [CEvent.start, CEvent.openEvt 0]).nextWs = 1 ∧
    (runMachine [CEvent.start, CEvent.openEvt 0, CEvent.start]).nextWs = 2 ∧
    (runMachine [CEvent.start, CEvent.openEvt 0, CEvent.start]).wsRef = some 1 ∧
    (runMachine [CEvent.start, CEvent.openEvt 0, CEvent.start]).socketsClosed = [0] ∧
    runMachine [CEvent.start, CEvent.openEvt 0, CEvent.start]
      ≠ runMachine [CEvent.start, CEvent.openEvt 0] := by
  refine ⟨by decide, by decide, by decide, by decide, by decide, by decide, by decide⟩

/-- Claim C5 as amended: `start()` is not idempotent — whenever a
transport is tracked it closes that transport and opens exactly one
fresh one, so `start(); start()` leaves exactly one tracked transport
(the newer), the older having been closed; timers and the attempt
counter are untouched. -/
theorem c5_start_reopens (s : MachineState) (sid : Nat) (h : s.wsRef = some sid) :
    (step s CEvent.start).nextWs = s.nextWs + 1 ∧
    (step s CEvent.start).wsRef = some s.nextWs ∧
    (step s CEvent.start).socketsClosed = sid :: s.socketsClosed ∧
    (step s CEvent.start).reconnectAttempts = s.reconnectAttempts ∧
    (step s CEvent.start).pendingTimers = s.pendingTimers ∧
    (step s CEvent.start).timerRef = s.timerRef := by
  show (connect s).nextWs = s.nextWs + 1 ∧ (connect s).wsRef = some s.nextWs ∧
    (connect s).socketsClosed = sid :: s.socketsClosed ∧
    (connect s).reconnectAttempts = s.reconnectAttempts ∧
    (connect s).pendingTimers = s.pendingTimers ∧
    (connect s).timerRef = s.timerRef
  unfold connect
  rw [h]
  exact ⟨rfl, rfl, rfl, rfl, rfl, rfl⟩

/-- Witness for the amended C5 at the concrete state reached by
start, open 0. -/
theorem c5_start_reopens_witness :
    (step (runMachine [CEvent.start, CEvent.openEvt 0]) CEvent.start).nextWs
      = (runMachine [CEvent.start, CEvent.openEvt 0]).nextWs + 1 ∧
    (step (runMachine [CEvent.start, CEvent.openEvt 0]) CEvent.start).wsRef
      = some (runMachine [CEvent.start, CEvent.openEvt 0]).nextWs ∧
    (step (runMachine [CEvent.start, CEvent.openEvt 0]) CEvent.start).socketsClosed
      = 0 :: (runMachine [CEvent.start, CEvent.openEvt 0]).socketsClosed ∧
    (step (runMachine [CEvent.start, CEvent.openEvt 0]) CEvent.start).reconnectAttempts
      = (runMachine [CEvent.start, CEvent.openEvt 0]).reconnectAttempts ∧
    (step (runMachine [CEvent.start, CEvent.openEvt 0]) CEvent.start).pendingTimers
      = (runMachine [CEvent.start, CEvent.openEvt 0]).pendingTimers ∧
    (step (runMachine [CEvent.start, CEvent.openEvt 0]) CEvent.start).timerRef
      = (runMachine [CEvent.start, CEvent.openEvt 0]).timerRef :=
  c5_start_reopens (runMachine [CEvent.start, CEvent.openEvt 0]) 0 (by decide)

/-! Claim C8 -/

/-- Claim C8 evaluated on the code: a state with an open transport and a
pending reconnect timer is reachable.  In the legal run start, open 0,
stop, start, open 1, close 0 the late close event of stopped socket 0
arrives after socket 1 has opened; the shared `onclose` handler schedules
a reconnect timer (and nulls the ref tracking the open socket 1), leaving
socket 1 open while timer 0 is pending. -/
theorem c8_open_transport_with_pending_timer :
    LegalFrom initMachine
        [CEvent.start, CEvent.openEvt 0, CEvent.stop, CEvent.start,
         CEvent.openEvt 1, CEvent.closeEvt 0] = true ∧
    isOpenSock
        (runMachine
          [CEvent.start, CEvent.openEvt 0, CEvent.stop, CEvent.start,
           CEvent.openEvt 1, CEvent.closeEvt 0]) 1 = true ∧
    (runMachine
        [CEvent.start, CEvent.openEvt 0, CEvent.stop, CEvent.start,
         CEvent.openEvt 1, CEvent.closeEvt 0]).pendingTimers = [0] := by
  refine ⟨by decide, by decide, by decide⟩

end Brewctl
